import Mathlib

/-!
Shallow embedding of `libtorrent::aux::disk_io_thread_pool`
(src/libtorrent/src/disk_io_thread_pool.cpp).

The pool's mutable fields become a `PoolState` record; mutex-protected member
functions become explicit state transformers returning the new state together
with a trace of externally observable actions (`Event`): timer arming and
cancellation, condition-variable notification, thread start, join and detach.
Machine `int`s are modelled as `Int` (overflow plays no role in the claims,
which are about small counters). CAS retry loops are modelled twice: once by
their sequential effect inside the state transformers, and once as standalone
loops over an explicit interference schedule (`tryExitCas`, `lowerCas`) so
that the never-below-zero discipline of `m_threads_to_exit` can be stated
against the loop itself.
-/

namespace DiskIoThreadPool

/-- Externally observable actions performed by pool member functions. -/
inductive Event where
  | timerArm
  | timerCancel
  | notifyAll
  | startThread (id : Nat)
  | joinThread (id : Nat)
  | detachThread (id : Nat)
deriving DecidableEq

/-- The pool's mutable state: `m_max_threads`, `m_threads_to_exit`, `m_abort`,
`m_num_idle_threads`, `m_min_idle_threads`, the registry `m_threads` (worker
handles, modelled by their thread ids, in insertion order), whether the idle
timer is currently armed, and the observed length of `m_queued_jobs`.
`next_id` supplies fresh thread ids for `emplace_back`. -/
structure PoolState where
  max_threads : Int
  threads_to_exit : Int
  abort_flag : Bool
  num_idle_threads : Int
  min_idle_threads : Int
  threads : List Nat
  next_id : Nat
  timer_armed : Bool
  queued_jobs : Nat
deriving DecidableEq

/-- `stop_threads(num_to_stop)`: overwrite `m_threads_to_exit` and wake all
waiters (lines 204-208). -/
def stop_threads (num_to_stop : Int) (s : PoolState) : PoolState × List Event :=
  ({ s with threads_to_exit := num_to_stop }, [Event.notifyAll])

/-- `set_max_threads(i)` (lines 69-76): no-op when `i` equals the stored
maximum; otherwise store `i`, and unless the registry is strictly smaller
than `i`, request `size - i` exits. -/
def set_max_threads (i : Int) (s : PoolState) : PoolState × List Event :=
  if i = s.max_threads then (s, [])
  else
    let s1 := { s with max_threads := i }
    if (s1.threads.length : Int) < i then (s1, [])
    else stop_threads ((s1.threads.length : Int) - i) s1

/-- `abort(wait)` (lines 78-99): return if already aborting; otherwise set the
flag, cancel the idle timer, request every registered worker to exit, then
join (when `wait`) or detach each registered worker and clear the registry. -/
def abort (wait : Bool) (s : PoolState) : PoolState × List Event :=
  if s.abort_flag then (s, [])
  else
    let s1 := { s with abort_flag := true, timer_armed := false }
    let r := stop_threads (s1.threads.length : Int) s1
    let perThread := r.1.threads.map fun t =>
      if wait then Event.joinThread t else Event.detachThread t
    ({ r.1 with threads := [] }, Event.timerCancel :: r.2 ++ perThread)

/-- `thread_active()` (lines 101-109): decrement `m_num_idle_threads`; the CAS
retry loop then pulls `m_min_idle_threads` down to the new count whenever the
new count is smaller, i.e. sequentially `min`. -/
def thread_active (s : PoolState) : PoolState :=
  let n := s.num_idle_threads - 1
  { s with num_idle_threads := n, min_idle_threads := min s.min_idle_threads n }

/-- Modelled from the spec: `thread_idle` is declared in the pool's header,
which is not part of the sources; per the spec a worker going idle
"transitions to IDLE (increments `num_idle_threads`)". -/
def thread_idle (s : PoolState) : PoolState :=
  { s with num_idle_threads := s.num_idle_threads + 1 }

/-- Modelled from the spec: `should_exit` is declared in the pool's header,
which is not part of the sources; per the spec it observes that "an exit has
been requested (`threads_to_exit > 0`)". -/
def should_exit (s : PoolState) : Bool := 0 < s.threads_to_exit

/-- Modelled from the spec: `num_threads` is declared in the pool's header,
which is not part of the sources; per the spec it is the current worker
count, the size of the registry. -/
def num_threads (s : PoolState) : Int := (s.threads.length : Int)

/-- `try_thread_exit(id)` (lines 111-137): claim one exit slot via the CAS
loop (sequential effect: decrement exactly when positive); on a claimed slot
and not aborting, detach and remove this thread from the registry, cancelling
the idle timer when the registry becomes empty. Returns whether a slot was
claimed. -/
def try_thread_exit (id : Nat) (s : PoolState) : Bool × PoolState × List Event :=
  if 0 < s.threads_to_exit then
    let s1 := { s with threads_to_exit := s.threads_to_exit - 1 }
    if s1.abort_flag then (true, s1, [])
    else
      let removed := s1.threads.filter (fun t => t = id)
      let remaining := s1.threads.filter (fun t => ¬ t = id)
      let s2 := { s1 with threads := remaining }
      if remaining.isEmpty then
        (true, { s2 with timer_armed := false },
          removed.map Event.detachThread ++ [Event.timerCancel])
      else
        (true, s2, removed.map Event.detachThread)
  else (false, s, [])

/-- The thread-starting loop of `job_queued` (lines 163-183), with the number
of remaining loop iterations (`queue_size - i`) made explicit as fuel: while
the registry is below `m_max_threads`, arm the idle timer if the registry is
empty and register one fresh worker. -/
def startThreads : Nat → PoolState → PoolState × List Event
  | 0, s => (s, [])
  | Nat.succ n, s =>
    if (s.threads.length : Int) < s.max_threads then
      let armEv : List Event := if s.threads.isEmpty then [Event.timerArm] else []
      let s1 := { s with threads := s.threads ++ [s.next_id]
                       , next_id := s.next_id + 1
                       , timer_armed := s.timer_armed || s.threads.isEmpty }
      let r := startThreads n s1
      (r.1, armEv ++ Event.startThread s.next_id :: r.2)
    else (s, [])

/-- `job_queued(queue_size)` (lines 146-184): fast return when
`m_num_idle_threads >= queue_size`; return when aborting; otherwise lower
`m_threads_to_exit` to at most `max 0 (idle - queue_size)` (sequential effect
of the CAS loop) and start threads from `i = m_num_idle_threads` up to
`queue_size`, capped by `m_max_threads`. -/
def job_queued (queue_size : Int) (s : PoolState) : PoolState × List Event :=
  if queue_size ≤ s.num_idle_threads then (s, [])
  else if s.abort_flag then (s, [])
  else
    let bound := max 0 (s.num_idle_threads - queue_size)
    let s1 := if bound < s.threads_to_exit then { s with threads_to_exit := bound } else s
    startThreads (queue_size - s1.num_idle_threads).toNat s1

/-- `reap_idle_threads(ec)` (lines 186-202): return on error, abort or empty
registry; otherwise rearm the timer, exchange `m_min_idle_threads` with
`m_num_idle_threads`, and when the exchanged-out minimum is positive request
`max min_idle (size - max_threads)` exits. -/
def reap_idle_threads (ec : Bool) (s : PoolState) : PoolState × List Event :=
  if ec then (s, [])
  else if s.abort_flag then (s, [])
  else if s.threads.isEmpty then (s, [])
  else
    let s1 := { s with timer_armed := true }
    let min_idle := s1.min_idle_threads
    let s2 := { s1 with min_idle_threads := s1.num_idle_threads }
    if min_idle ≤ 0 then (s2, [Event.timerArm])
    else
      let to_stop := max min_idle ((s2.threads.length : Int) - s2.max_threads)
      let r := stop_threads to_stop s2
      (r.1, Event.timerArm :: r.2)

/-- One pass of the do-while loop of `wait_for_job` (lines 223-242), iterated
over `sched`, the values of `m_queued_jobs.size()` observed after each timed
condition wait (the queue is mutated by collaborators while the wait releases
the lock). `none` means the schedule ran out with the worker still parked;
`some (true, s, evs)` means the worker claimed an exit slot and returns true;
`some (false, s, evs)` means the queue became non-empty and the worker
returns to process a job. -/
def wait_loop (id : Nat) : List Nat → PoolState → Option (Bool × PoolState × List Event)
  | sched, s =>
    let tryRes :=
      if should_exit s ∧ (s.queued_jobs = 0 ∨ 1 < num_threads s)
      then try_thread_exit id s
      else (false, s, [])
    if tryRes.1 then some (true, thread_active tryRes.2.1, tryRes.2.2)
    else
      match sched with
      | [] => none
      | q :: rest =>
        let s2 := { tryRes.2.1 with queued_jobs := q }
        if q = 0 then wait_loop id rest s2
        else some (false, thread_active s2, [])

/-- `wait_for_job` (lines 210-248): when the queue is observed non-empty on
entry, return false at once; otherwise go idle and enter the wait loop. -/
def wait_for_job (id : Nat) (sched : List Nat) (s : PoolState) :
    Option (Bool × PoolState × List Event) :=
  if s.queued_jobs = 0 then wait_loop id sched (thread_idle s)
  else some (false, s, [])

/-- The CAS retry loop of `try_thread_exit` (lines 113-115) over the atomic
counter alone, under interference: `e` is the currently expected value (the
initial load), and `sched` lists the actual memory values at successive CAS
attempts (an exhausted schedule means no further interference, so the CAS
succeeds). Returns the final observed value together with the value written
by a successful CAS, if any. -/
def tryExitCas : Int → List Int → Int × Option Int
  | e, [] => if e ≤ 0 then (e, none) else (e, some (e - 1))
  | e, m :: rest =>
    if e ≤ 0 then (e, none)
    else if m = e then (e, some (e - 1))
    else tryExitCas m rest

/-- The lowering CAS retry loop of `job_queued` (lines 156-159) over the
atomic counter alone, under interference, with the target bound
`max 0 (idle - queue_size)` passed in: same schedule convention as
`tryExitCas`. -/
def lowerCas (bound : Int) : Int → List Int → Int × Option Int
  | e, [] => if e ≤ bound then (e, none) else (e, some bound)
  | e, m :: rest =>
    if e ≤ bound then (e, none)
    else if m = e then (e, some bound)
    else lowerCas bound m rest

/-- A concrete pool state used to evaluate the definitions: three registered
workers, maximum lowered to 1, no idle worker observed over the last
interval, no pending exit request. -/
def exState : PoolState :=
  { max_threads := 1, threads_to_exit := 0, abort_flag := false
  , num_idle_threads := 0, min_idle_threads := 0, threads := [0, 1, 2]
  , next_id := 3, timer_armed := true, queued_jobs := 0 }

/-- The thread-starting loop never touches `m_threads_to_exit`. -/
theorem startThreads_threads_to_exit (n : Nat) (s : PoolState) :
    (startThreads n s).1.threads_to_exit = s.threads_to_exit := by
  induction n generalizing s with
  | zero => rfl
  | succ n ih =>
    simp only [startThreads]
    split
    · exact ih _
    · rfl

/-- `abort` on an already-aborting pool is an identity with no actions. -/
theorem abort_of_flag (w : Bool) (s : PoolState) (h : s.abort_flag = true) :
    abort w s = (s, []) := by
  unfold abort
  rw [if_pos h]

/-- After any `abort` call the abort flag is set. -/
theorem abort_abort_flag (w : Bool) (s : PoolState) : (abort w s).1.abort_flag = true := by
  unfold abort stop_threads
  split
  · assumption
  · rfl

/-- On a firing that proceeds, `reap_idle_threads` rearms the timer, exchanges
the minimum-idle counter, and requests `max min_idle (size - max_threads)`
exits exactly when the exchanged-out minimum is positive. -/
theorem reap_proceed (s : PoolState) (hab : s.abort_flag = false) (hne : s.threads ≠ []) :
    reap_idle_threads false s
      = if s.min_idle_threads ≤ 0
        then ({ s with timer_armed := true, min_idle_threads := s.num_idle_threads },
              [Event.timerArm])
        else ({ s with timer_armed := true, min_idle_threads := s.num_idle_threads,
                       threads_to_exit :=
                         max s.min_idle_threads ((s.threads.length : Int) - s.max_threads) },
              [Event.timerArm, Event.notifyAll]) := by
  have hemp : s.threads.isEmpty = false := by
    cases h : s.threads with
    | nil => exact absurd h hne
    | cons a t => rfl
  unfold reap_idle_threads stop_threads
  simp [hemp, hab]

/-- When the new maximum is a genuine change not above the worker count,
`set_max_threads` stores it and overwrites the exit request with the excess. -/
theorem set_max_threads_shrink (n : Int) (s : PoolState) (hne : n ≠ s.max_threads)
    (hle : n ≤ (s.threads.length : Int)) :
    set_max_threads n s
      = ({ s with max_threads := n, threads_to_exit := (s.threads.length : Int) - n },
         [Event.notifyAll]) := by
  unfold set_max_threads stop_threads
  rw [if_neg hne, if_neg (by simpa using not_lt.mpr hle)]

/-- Claim C1: for every reaper firing that proceeds (error code clear, not
aborting, at least one worker registered), with `m` the value exchanged out
of `min_idle_threads`, `c` the current worker count and `k` the configured
`max_threads`: if `m > 0` the reaper requests exactly `max m (c - k)` worker
terminations via `stop_threads`, and if `m ≤ 0` it requests none. -/
theorem C1_reaper_math (s : PoolState) (hab : s.abort_flag = false)
    (hne : s.threads ≠ []) :
    (0 < s.min_idle_threads →
      (reap_idle_threads false s).1.threads_to_exit
          = max s.min_idle_threads ((s.threads.length : Int) - s.max_threads)
        ∧ Event.notifyAll ∈ (reap_idle_threads false s).2)
    ∧ (s.min_idle_threads ≤ 0 →
      (reap_idle_threads false s).1.threads_to_exit = s.threads_to_exit
        ∧ Event.notifyAll ∉ (reap_idle_threads false s).2) := by
  rw [reap_proceed s hab hne]
  constructor
  · intro hpos
    rw [if_neg (by omega)]
    exact ⟨rfl, by simp⟩
  · intro hnp
    rw [if_pos hnp]
    exact ⟨rfl, by simp⟩

/-- Witness for C1 at a concrete state with `m = 2`, `c = 3`, `k = 1`. -/
theorem C1_reaper_math_witness :
    { exState with min_idle_threads := 2 }.abort_flag = false
      ∧ { exState with min_idle_threads := 2 }.threads ≠ []
      ∧ (0 : Int) < { exState with min_idle_threads := 2 }.min_idle_threads
      ∧ (reap_idle_threads false { exState with min_idle_threads := 2 }).1.threads_to_exit
          = max (2 : Int) ((3 : Int) - 1) :=
  ⟨by decide, by decide, by decide,
    ((C1_reaper_math { exState with min_idle_threads := 2 } (by decide)
      (by decide)).1 (by decide)).1⟩

/-- Claim C2 counterexample: at a state that proceeds (no error, not
aborting, three workers) with worker count 3 exceeding `max_threads = 1` but
sampled minimum idle count 0, the reaper requests no termination at all:
`threads_to_exit` stays 0 and `stop_threads` is never invoked (no
notification), contradicting "at least `c − k` terminations are requested
regardless of the sampled minimum idle count". -/
theorem C2_counterexample :
    exState.abort_flag = false ∧ exState.threads ≠ []
      ∧ exState.max_threads < (exState.threads.length : Int)
      ∧ exState.min_idle_threads = 0
      ∧ (reap_idle_threads false exState).1.threads_to_exit = 0
      ∧ Event.notifyAll ∉ (reap_idle_threads false exState).2 := by
  decide

/-- Claim C2 (amended): on every reaper firing that proceeds, **provided the
sampled minimum idle count is positive**, if the current worker count exceeds
the configured `max_threads` then at least `count - max_threads` terminations
are requested; when the sampled minimum is ≤ 0 the reaper requests none even
if the count exceeds the maximum. -/
theorem C2_amended_reaper_enforces_max (s : PoolState) (hab : s.abort_flag = false)
    (hne : s.threads ≠ []) (hm : 0 < s.min_idle_threads)
    (_hc : s.max_threads < (s.threads.length : Int)) :
    (s.threads.length : Int) - s.max_threads
      ≤ (reap_idle_threads false s).1.threads_to_exit := by
  rw [reap_proceed s hab hne, if_neg (by omega)]
  exact le_max_right _ _

/-- Witness for the amended C2 at a concrete state with `m = 2`, `c = 3`,
`k = 1`. -/
theorem C2_amended_witness :
    { exState with min_idle_threads := 2 }.abort_flag = false
      ∧ { exState with min_idle_threads := 2 }.threads ≠ []
      ∧ (0 : Int) < { exState with min_idle_threads := 2 }.min_idle_threads
      ∧ { exState with min_idle_threads := 2 }.max_threads
          < ({ exState with min_idle_threads := 2 }.threads.length : Int)
      ∧ ({ exState with min_idle_threads := 2 }.threads.length : Int)
          - { exState with min_idle_threads := 2 }.max_threads
          ≤ (reap_idle_threads false { exState with min_idle_threads := 2 }).1.threads_to_exit :=
  ⟨by decide, by decide, by decide, by decide,
    C2_amended_reaper_enforces_max { exState with min_idle_threads := 2 }
      (by decide) (by decide) (by decide) (by decide)⟩

/-- Claim C3: in the wait loop of `wait_for_job`, a worker that observes an
exit request (`threads_to_exit > 0`) while the job queue is non-empty and it
is the only registered worker never claims an exit slot and never exits: as
long as the queue stays non-empty (no other worker exists to drain it), the
loop can only report "process a job" (false), with `threads_to_exit` and the
registry untouched. -/
theorem C3_last_worker_never_exits (id : Nat) (sched : List Nat) (s : PoolState)
    (hq : s.queued_jobs ≠ 0) (hone : s.threads.length = 1)
    (_hex : 0 < s.threads_to_exit) (hs : ∀ q ∈ sched, q ≠ 0) :
    ∀ b r evs, wait_loop id sched s = some (b, r, evs) →
      b = false ∧ r.threads_to_exit = s.threads_to_exit ∧ r.threads = s.threads := by
  intro b r evs h
  have hguard : (if should_exit s ∧ (s.queued_jobs = 0 ∨ 1 < num_threads s)
      then try_thread_exit id s else (false, s, [])) = (false, s, []) := by
    rw [if_neg]
    rintro ⟨-, h0 | h1⟩
    · exact hq h0
    · rw [num_threads, hone] at h1
      norm_num at h1
  cases sched with
  | nil =>
    rw [wait_loop.eq_def] at h
    dsimp only at h
    rw [hguard] at h
    simp at h
  | cons q rest =>
    have hq0 : ¬(q = 0) := hs q (List.mem_cons_self q rest)
    rw [wait_loop.eq_def] at h
    dsimp only at h
    rw [hguard] at h
    simp [hq0] at h
    obtain ⟨hb, hr, -⟩ := h
    subst hr
    exact ⟨hb, by simp [thread_active], by simp [thread_active]⟩

/-- Witness for C3: one worker, one queued job, one pending exit request; the
loop reports "process a job" with the exit request intact. -/
theorem C3_witness :
    { exState with queued_jobs := 1, threads := [0], threads_to_exit := 1 }.queued_jobs ≠ 0
      ∧ (∀ b r evs,
          wait_loop 0 [1] { exState with queued_jobs := 1, threads := [0], threads_to_exit := 1 }
            = some (b, r, evs) →
          b = false
            ∧ r.threads_to_exit
              = { exState with queued_jobs := 1, threads := [0],
                               threads_to_exit := 1 }.threads_to_exit) :=
  ⟨by decide, fun b r evs h =>
    ⟨(C3_last_worker_never_exits 0 [1]
        { exState with queued_jobs := 1, threads := [0], threads_to_exit := 1 }
        (by decide) (by decide) (by decide) (by decide) b r evs h).1,
      (C3_last_worker_never_exits 0 [1]
        { exState with queued_jobs := 1, threads := [0], threads_to_exit := 1 }
        (by decide) (by decide) (by decide) (by decide) b r evs h).2.1⟩⟩

/-- Claim C5: `set_max_threads n` is a no-op when `n` equals the stored
maximum; otherwise it stores `n`, and then: if the worker count is below `n`
it returns without requesting any exits, and if the worker count is at or
above `n` it requests a shrink of exactly `count - n` in the same call. -/
theorem C5_set_max_threads (n : Int) (s : PoolState) :
    (n = s.max_threads → set_max_threads n s = (s, []))
    ∧ (n ≠ s.max_threads →
        (set_max_threads n s).1.max_threads = n
        ∧ ((s.threads.length : Int) < n →
            set_max_threads n s = ({ s with max_threads := n }, []))
        ∧ (n ≤ (s.threads.length : Int) →
            set_max_threads n s
              = ({ s with max_threads := n,
                          threads_to_exit := (s.threads.length : Int) - n },
                 [Event.notifyAll]))) := by
  constructor
  · intro h
    unfold set_max_threads
    rw [if_pos h]
  · intro hne
    refine ⟨?_, ?_, ?_⟩
    · simp only [set_max_threads, stop_threads]
      rw [if_neg hne]
      split <;> rfl
    · intro hlt
      simp only [set_max_threads]
      rw [if_neg hne]
      exact if_pos hlt
    · intro hle
      exact set_max_threads_shrink n s hne hle

/-- Witness for C5: raising the maximum from 1 to 5 with three workers stores
5 and starts nothing. -/
theorem C5_witness :
    (5 : Int) ≠ exState.max_threads ∧ (exState.threads.length : Int) < 5
      ∧ set_max_threads 5 exState = ({ exState with max_threads := 5 }, []) :=
  ⟨by decide, by decide,
    ((C5_set_max_threads 5 exState).2 (by decide)).2.1 (by decide)⟩

/-- Claim C7: when `num_idle_threads ≥ queue_size` at call time, `job_queued`
returns at once with the state untouched and no action taken: no worker
started, `threads_to_exit` unmodified, registry unmodified, timer unmodified. -/
theorem C7_fast_path (q : Int) (s : PoolState) (h : q ≤ s.num_idle_threads) :
    job_queued q s = (s, []) := by
  unfold job_queued
  rw [if_pos h]

/-- Witness for C7: `job_queued 0` on a state with no idle workers. -/
theorem C7_witness :
    (0 : Int) ≤ exState.num_idle_threads ∧ job_queued 0 exState = (exState, []) :=
  ⟨by decide, C7_fast_path 0 exState (by decide)⟩

/-- Claim C9: `set_max_threads n` with `n` different from the stored maximum
but equal to the current worker count invokes `stop_threads 0`, which
overwrites `threads_to_exit` with 0, cancelling any previously requested
voluntary exits. -/
theorem C9_set_max_equal_count (n : Int) (s : PoolState) (hne : n ≠ s.max_threads)
    (hcount : (s.threads.length : Int) = n) :
    (set_max_threads n s).1.threads_to_exit = 0
      ∧ (set_max_threads n s).2 = [Event.notifyAll] := by
  rw [set_max_threads_shrink n s hne (le_of_eq hcount.symm)]
  exact ⟨by simp [hcount], rfl⟩

/-- Witness for C9: three workers, maximum 1, two pending exit requests;
`set_max_threads 3` wipes the exit requests. -/
theorem C9_witness :
    (3 : Int) ≠ { exState with threads_to_exit := 2 }.max_threads
      ∧ ({ exState with threads_to_exit := 2 }.threads.length : Int) = 3
      ∧ (set_max_threads 3 { exState with threads_to_exit := 2 }).1.threads_to_exit = 0 :=
  ⟨by decide, by decide,
    (C9_set_max_equal_count 3 { exState with threads_to_exit := 2 }
      (by decide) (by decide)).1⟩

/-- Claim C10: when the job queue is non-empty at the moment `wait_for_job`
is entered, it returns false immediately with the whole state unchanged (in
particular `num_idle_threads` and `min_idle_threads`) and no action taken:
the worker never transitions through the idle state. -/
theorem C10_nonempty_queue_immediate (id : Nat) (sched : List Nat) (s : PoolState)
    (h : s.queued_jobs ≠ 0) :
    wait_for_job id sched s = some (false, s, []) := by
  unfold wait_for_job
  rw [if_neg h]

/-- Witness for C10 at a concrete state with one queued job. -/
theorem C10_witness :
    { exState with queued_jobs := 1 }.queued_jobs ≠ 0
      ∧ wait_for_job 0 [0] { exState with queued_jobs := 1 }
          = some (false, { exState with queued_jobs := 1 }, []) :=
  ⟨by decide, C10_nonempty_queue_immediate 0 [0] { exState with queued_jobs := 1 } (by decide)⟩

/-- The exit-claim CAS loop claims a slot exactly when its final observed
value is positive; a successful claim writes that value minus one, never a
negative number; a non-positive load exits the loop with no write. -/
theorem tryExitCas_spec (sched : List Int) (e : Int) :
    ((tryExitCas e sched).2.isSome = true ↔ 0 < (tryExitCas e sched).1)
    ∧ (∀ w, (tryExitCas e sched).2 = some w → w = (tryExitCas e sched).1 - 1 ∧ 0 ≤ w)
    ∧ (e ≤ 0 → tryExitCas e sched = (e, none)) := by
  induction sched generalizing e with
  | nil =>
    by_cases h : e ≤ 0
    · rw [tryExitCas, if_pos h]
      refine ⟨by simp; omega, by simp, fun _ => rfl⟩
    · rw [tryExitCas, if_neg h]
      refine ⟨by simp; omega, ?_, fun hle => absurd hle h⟩
      intro w hw
      simp at hw
      dsimp only
      omega
  | cons m rest ih =>
    by_cases h : e ≤ 0
    · rw [tryExitCas, if_pos h]
      refine ⟨by simp; omega, by simp, fun _ => rfl⟩
    · rw [tryExitCas, if_neg h]
      by_cases hm : m = e
      · rw [if_pos hm]
        refine ⟨by simp; omega, ?_, fun hle => absurd hle h⟩
        intro w hw
        simp at hw
        dsimp only
        omega
      · rw [if_neg hm]
        exact ⟨(ih m).1, (ih m).2.1, fun hle => absurd hle h⟩

/-- The lowering CAS loop of `job_queued` writes only the bound, and a value
already at or below the bound exits the loop with no write. -/
theorem lowerCas_spec (bound : Int) (sched : List Int) (e : Int) :
    (∀ w, (lowerCas bound e sched).2 = some w → w = bound)
    ∧ (e ≤ bound → lowerCas bound e sched = (e, none)) := by
  induction sched generalizing e with
  | nil =>
    by_cases h : e ≤ bound
    · rw [lowerCas, if_pos h]
      exact ⟨by simp, fun _ => rfl⟩
    · rw [lowerCas, if_neg h]
      refine ⟨?_, fun hle => absurd hle h⟩
      intro w hw
      simp at hw
      omega
  | cons m rest ih =>
    by_cases h : e ≤ bound
    · rw [lowerCas, if_pos h]
      exact ⟨by simp, fun _ => rfl⟩
    · rw [lowerCas, if_neg h]
      by_cases hm : m = e
      · rw [if_pos hm]
        refine ⟨?_, fun hle => absurd hle h⟩
        intro w hw
        simp at hw
        omega
      · rw [if_neg hm]
        exact ⟨(ih m).1, fun hle => absurd hle h⟩

/-- `try_thread_exit` claims a slot exactly when `threads_to_exit` is
positive, decrements it by one on a claim, and on a failed claim leaves the
whole state unchanged. -/
theorem try_thread_exit_spec (id : Nat) (s : PoolState) :
    ((try_thread_exit id s).1 = true ↔ 0 < s.threads_to_exit)
    ∧ ((try_thread_exit id s).1 = true →
        (try_thread_exit id s).2.1.threads_to_exit = s.threads_to_exit - 1)
    ∧ ((try_thread_exit id s).1 = false → (try_thread_exit id s).2.1 = s) := by
  simp only [try_thread_exit]
  split_ifs with h h2 h3
  · exact ⟨by simp [h], fun _ => rfl, by simp⟩
  · exact ⟨by simp [h], fun _ => rfl, by simp⟩
  · exact ⟨by simp [h], fun _ => rfl, by simp⟩
  · exact ⟨by simp [h], by simp, fun _ => rfl⟩

/-- `set_max_threads` preserves non-negativity of `threads_to_exit`. -/
theorem set_max_threads_nonneg (n : Int) (s : PoolState) (h : 0 ≤ s.threads_to_exit) :
    0 ≤ (set_max_threads n s).1.threads_to_exit := by
  simp only [set_max_threads, stop_threads]
  split_ifs with h1 h2
  · exact h
  · exact h
  · dsimp only
    omega

/-- `abort` preserves non-negativity of `threads_to_exit`. -/
theorem abort_nonneg (w : Bool) (s : PoolState) (h : 0 ≤ s.threads_to_exit) :
    0 ≤ (abort w s).1.threads_to_exit := by
  simp only [abort, stop_threads]
  split_ifs <;> dsimp only <;> omega

/-- `job_queued` preserves non-negativity of `threads_to_exit`. -/
theorem job_queued_nonneg (q : Int) (s : PoolState) (h : 0 ≤ s.threads_to_exit) :
    0 ≤ (job_queued q s).1.threads_to_exit := by
  simp only [job_queued]
  split_ifs with h1 h2 h3
  · exact h
  · exact h
  · rw [startThreads_threads_to_exit]
    dsimp only
    exact le_max_left 0 _
  · rw [startThreads_threads_to_exit]
    exact h

/-- `reap_idle_threads` preserves non-negativity of `threads_to_exit`. -/
theorem reap_nonneg (ec : Bool) (s : PoolState) (h : 0 ≤ s.threads_to_exit) :
    0 ≤ (reap_idle_threads ec s).1.threads_to_exit := by
  simp only [reap_idle_threads, stop_threads]
  split_ifs with h1 h2 h3 h4
  · exact h
  · exact h
  · exact h
  · exact h
  · dsimp only
    exact le_trans (by omega) (le_max_left _ _)

/-- Claim C4: `threads_to_exit` is never negative. The CAS retry loop of
`try_thread_exit` decrements it only when the pre-decrement value is strictly
positive (a slot is claimed exactly when the observed value was positive),
and a failed claim leaves the counter unchanged; every other writer —
`stop_threads` as called from `set_max_threads`, `abort` and
`reap_idle_threads`, and the lowering loop of `job_queued` — stores only
non-negative values, so every operation preserves `0 ≤ threads_to_exit`. -/
theorem C4_threads_to_exit_nonneg (s : PoolState) (h : 0 ≤ s.threads_to_exit) :
    (∀ sched e, ((tryExitCas e sched).2.isSome = true ↔ 0 < (tryExitCas e sched).1)
      ∧ (∀ w, (tryExitCas e sched).2 = some w → w = (tryExitCas e sched).1 - 1 ∧ 0 ≤ w)
      ∧ (e ≤ 0 → tryExitCas e sched = (e, none)))
    ∧ (∀ bound sched e, 0 ≤ bound →
        (∀ w, (lowerCas bound e sched).2 = some w → 0 ≤ w)
        ∧ (e ≤ bound → lowerCas bound e sched = (e, none)))
    ∧ (∀ id, ((try_thread_exit id s).1 = true ↔ 0 < s.threads_to_exit)
        ∧ 0 ≤ (try_thread_exit id s).2.1.threads_to_exit
        ∧ ((try_thread_exit id s).1 = false → (try_thread_exit id s).2.1 = s))
    ∧ (∀ n, 0 ≤ (set_max_threads n s).1.threads_to_exit)
    ∧ (∀ w, 0 ≤ (abort w s).1.threads_to_exit)
    ∧ (∀ q, 0 ≤ (job_queued q s).1.threads_to_exit)
    ∧ (∀ ec, 0 ≤ (reap_idle_threads ec s).1.threads_to_exit) := by
  refine ⟨fun sched e => tryExitCas_spec sched e,
    fun bound sched e hb => ⟨fun w hw => ?_, (lowerCas_spec bound sched e).2⟩,
    fun id => ⟨(try_thread_exit_spec id s).1, ?_, (try_thread_exit_spec id s).2.2⟩,
    fun n => set_max_threads_nonneg n s h,
    fun w => abort_nonneg w s h,
    fun q => job_queued_nonneg q s h,
    fun ec => reap_nonneg ec s h⟩
  · have hwb := (lowerCas_spec bound sched e).1 w hw
    omega
  · by_cases hc : (try_thread_exit id s).1 = true
    · have h1 := (try_thread_exit_spec id s).1.mp hc
      have h2 := (try_thread_exit_spec id s).2.1 hc
      omega
    · have h3 := (try_thread_exit_spec id s).2.2 (by simpa using hc)
      rw [h3]
      exact h

/-- Witness for C4 at a concrete state and concrete loop inputs. -/
theorem C4_witness :
    (0 : Int) ≤ exState.threads_to_exit
      ∧ (0 : Int) ≤ (set_max_threads 0 exState).1.threads_to_exit
      ∧ tryExitCas 0 [] = (0, none) :=
  ⟨by decide, (C4_threads_to_exit_nonneg exState (by decide)).2.2.2.1 0,
    ((C4_threads_to_exit_nonneg exState (by decide)).1 [] 0).2.2 (by decide)⟩

/-- Claim C6: the shrink-correction step of `job_queued` only ever lowers
`threads_to_exit`, never raises it: after the CAS loop (and the thread-start
loop, which does not touch the counter), `threads_to_exit` is at most
`max 0 (num_idle_threads - queue_size)`, and if the pre-call value was
already at or below that bound it is left unchanged. -/
theorem C6_shrink_only_lowers (q : Int) (s : PoolState)
    (hfast : s.num_idle_threads < q) (hab : s.abort_flag = false) :
    (job_queued q s).1.threads_to_exit ≤ max 0 (s.num_idle_threads - q)
    ∧ (job_queued q s).1.threads_to_exit ≤ s.threads_to_exit
    ∧ (s.threads_to_exit ≤ max 0 (s.num_idle_threads - q) →
        (job_queued q s).1.threads_to_exit = s.threads_to_exit) := by
  simp only [job_queued]
  rw [if_neg (by omega), if_neg (by simp [hab])]
  split_ifs with hcmp
  · rw [startThreads_threads_to_exit]
    dsimp only
    omega
  · rw [startThreads_threads_to_exit]
    omega

/-- Witness for C6: five pending exit requests, no idle worker, two queued
jobs; the correction lowers the counter to 0. -/
theorem C6_witness :
    { exState with threads_to_exit := 5 }.num_idle_threads < 2
      ∧ { exState with threads_to_exit := 5 }.abort_flag = false
      ∧ (job_queued 2 { exState with threads_to_exit := 5 }).1.threads_to_exit
          ≤ max 0 ({ exState with threads_to_exit := 5 }.num_idle_threads - 2) :=
  ⟨by decide, by decide,
    (C6_shrink_only_lowers 2 { exState with threads_to_exit := 5 }
      (by decide) (by decide)).1⟩

/-- Claim C8: `abort` is idempotent: a call while `abort_flag` is already set
returns immediately with no state change and no observable action (no timer
cancellation, no exit request, no join or detach), so a second `abort` after
a first one is a no-op and the overall state equals that after a single
call. -/
theorem C8_abort_idempotent (w w2 : Bool) (s : PoolState) :
    (s.abort_flag = true → abort w s = (s, []))
    ∧ abort w2 (abort w s).1 = ((abort w s).1, []) :=
  ⟨abort_of_flag w s, abort_of_flag w2 (abort w s).1 (abort_abort_flag w s)⟩

/-- Witness for C8 at a concrete already-aborting state. -/
theorem C8_witness :
    { exState with abort_flag := true }.abort_flag = true
      ∧ abort true { exState with abort_flag := true }
          = ({ exState with abort_flag := true }, []) :=
  ⟨rfl, (C8_abort_idempotent true true { exState with abort_flag := true }).1 rfl⟩

end DiskIoThreadPool
